import Mathlib

/-!
Shallow embedding of the platformer player-movement controller
(`src/util/timers.rs`, `src/util/side.rs`, `src/util/walls.rs`,
`src/player/control_state.rs`, `src/player/control_params.rs`,
`src/player/system.rs`).

Modelling conventions:
* `f32` values are modelled as `ℚ` (exact arithmetic, no rounding).
* `usize` counters are modelled as `ℕ` with saturation at `USIZE_MAX`
  (`saturating_add` / `saturating_sub` in the source).
* External collaborators (keyboard, rapier ray-casts, the kinematic
  controller's collision report, the transform) are oracle inputs to the
  per-tick function, mirroring exactly what the source reads from them.
-/

/-- `usize::MAX` on a 64-bit target: saturation bound for `FrameCount`. -/
def USIZE_MAX : ℕ := 2 ^ 64 - 1

/-- `FrameCount` (src/util/timers.rs) is a transparent newtype of `usize`;
it is modelled as a plain `ℕ`, and `Cooldown` (a newtype of `FrameCount`)
likewise. The source operations keep their namespaced names below.

`FrameCount::increment`: `saturating_add(1)` (saturates at `usize::MAX`). -/
def FrameCount.increment (n : ℕ) : ℕ := min (n + 1) USIZE_MAX

/-- `FrameCount::decrement`: `saturating_sub(1)` (Nat subtraction saturates at 0). -/
def FrameCount.decrement (n : ℕ) : ℕ := n - 1

/-- `Cooldown::reset(duration)`: put the action on cooldown for `duration`. -/
def Cooldown.restart (_c : ℕ) (duration : ℕ) : ℕ := duration

/-- `Cooldown::tick`: decrement once (saturating at 0). -/
def Cooldown.tick (c : ℕ) : ℕ := FrameCount.decrement c

/-- `Cooldown::is_ready`: ready iff the internal count is exactly 0. -/
def Cooldown.isReady (c : ℕ) : Bool := decide (c = 0)

/-- `CapacitiveFlag` (src/util/timers.rs): a boolean that remembers how long
it has been un-set. -/
structure CapacitiveFlag where
  value : Bool
  timeSinceReleased : ℕ
deriving DecidableEq

/-- `CapacitiveFlag::default()`: false, with `time_since_released = usize::MAX`. -/
def CapacitiveFlag.init : CapacitiveFlag := ⟨false, USIZE_MAX⟩

/-- `CapacitiveFlag::tick(value)`: set or clear the flag; the internal timer is
reset to 0 whenever `value` is true, and incremented on a clear tick only when
the flag was already false (the release tick itself does not increment). -/
def CapacitiveFlag.tick (f : CapacitiveFlag) (value : Bool) : CapacitiveFlag :=
  if value then
    ⟨true, 0⟩
  else
    ⟨false, if f.value then f.timeSinceReleased else FrameCount.increment f.timeSinceReleased⟩

/-- `CapacitiveFlag::is_set`. -/
def CapacitiveFlag.isSet (f : CapacitiveFlag) : Bool := f.value

/-- `CapacitiveFlag::was_set_within(duration)`: `time_since_released <= duration`. -/
def CapacitiveFlag.wasSetWithin (f : CapacitiveFlag) (duration : ℕ) : Bool :=
  decide (f.timeSinceReleased ≤ duration)

/-- Iterated `tick(false)`: clear the flag for `n` consecutive ticks. -/
def CapacitiveFlag.clearTicks (f : CapacitiveFlag) : ℕ → CapacitiveFlag
  | 0 => f
  | n + 1 => (f.clearTicks n).tick false

/-- `enum Side` (src/util/side.rs): `Right` is the positive direction. -/
inductive Side where
  | Right : Side
  | Left : Side
deriving DecidableEq

/-- `enum YSide` (src/util/side.rs): `Up` is the positive direction. -/
inductive YSide where
  | Up : YSide
  | Down : YSide
deriving DecidableEq

/-- `SideMap<A>` (src/util/side.rs): exactly one `A` per `Side`. -/
structure SideMap (A : Type) where
  right : A
  left : A

/-- `SideMap` indexing (`Index<Side>`). -/
def SideMap.get {A : Type} (m : SideMap A) : Side → A
  | Side.Right => m.right
  | Side.Left => m.left

/-- `Neg for Side`. -/
def Side.negate : Side → Side
  | Side.Right => Side.Left
  | Side.Left => Side.Right

/-- `From<Side> for f32` / `Mul<Side>`: `Right ↦ 1`, `Left ↦ -1`. -/
def Side.signQ : Side → ℚ
  | Side.Right => 1
  | Side.Left => -1

/-- 2D vector with rational components (models `bevy::math::Vec2`). -/
structure Vec2 where
  x : ℚ
  y : ℚ
deriving DecidableEq

/-- Componentwise vector addition. -/
def Vec2.add (a b : Vec2) : Vec2 := ⟨a.x + b.x, a.y + b.y⟩

instance : Add Vec2 := ⟨Vec2.add⟩

/-- Scalar multiplication `c * v` (models `f32 * Vec2` / `Vec2 * f32`). -/
def Vec2.smul (c : ℚ) (v : Vec2) : Vec2 := ⟨c * v.x, c * v.y⟩

/-- Dot product (`Vec2::dot`). -/
def Vec2.dot (a b : Vec2) : ℚ := a.x * b.x + a.y * b.y

/-- `Vec2::ZERO`. -/
def Vec2.zero : Vec2 := ⟨0, 0⟩

/-- `enum WallSensorResult` (src/util/walls.rs). -/
inductive WallSensorResult where
  | NotAWall : WallSensorResult
  | Step : WallSensorResult
  | Ledge : WallSensorResult
  | Wall : WallSensorResult
deriving DecidableEq

/-- `WallSensors` (src/util/walls.rs): four sensors, bottom to top, each
recording a hit flag per side. The geometric `local_offset` of each sensor
only feeds the external ray-cast (an oracle here), so only the `hits` state
is modelled; `s0` is the bottom sensor (index 0 in the source array). -/
structure WallSensors where
  s0 : SideMap Bool
  s1 : SideMap Bool
  s2 : SideMap Bool
  s3 : SideMap Bool

/-- The 4-bit number built by `WallSensors::interpret`: the least-significant
bit represents the bottom sensor, and a bit is 1 when its sensor was hit
(`hit_flags |= 1 << i`). -/
def WallSensors.hitFlags (ws : WallSensors) (side : Side) : ℕ :=
  (if ws.s0.get side then 1 else 0) |||
  (if ws.s1.get side then 2 else 0) |||
  (if ws.s2.get side then 4 else 0) |||
  (if ws.s3.get side then 8 else 0)

/-- `WallSensors::interpret(side)` (src/util/walls.rs lines 268-285):
fixed lookup from the 4-bit hit pattern to a classification. -/
def WallSensors.interpret (ws : WallSensors) (side : Side) : WallSensorResult :=
  match ws.hitFlags side with
  | 0b0001 => WallSensorResult.Step
  | 0b0011 => WallSensorResult.Ledge
  | 0b0111 => WallSensorResult.Wall
  | 0b1111 => WallSensorResult.Wall
  | 0b1110 => WallSensorResult.Wall
  | _ => WallSensorResult.NotAWall

/-- Classification table as worded by the spec (section 3 / section 8):
pattern 0b0001 is a Step, 0b0011 a Ledge, 0b0111 / 0b1111 / 0b1110 a Wall,
and each of the 10 remaining patterns is NotAWall. Stated as a second
definition, to be compared against the source's `WallSensors.interpret`. -/
def specWallClassification (pattern : ℕ) : WallSensorResult :=
  if pattern = 0b0001 then WallSensorResult.Step
  else if pattern = 0b0011 then WallSensorResult.Ledge
  else if pattern = 0b0111 ∨ pattern = 0b1111 ∨ pattern = 0b1110 then WallSensorResult.Wall
  else WallSensorResult.NotAWall

/-- `enum PlayerWallState` (src/util/walls.rs). -/
inductive PlayerWallState where
  | Grabbed : Side → PlayerWallState
  | Sliding : Side → PlayerWallState
  | Climbing : Side → PlayerWallState
deriving DecidableEq

/-- `PlayerWallState::side`. -/
def PlayerWallState.side : PlayerWallState → Side
  | PlayerWallState.Grabbed s => s
  | PlayerWallState.Sliding s => s
  | PlayerWallState.Climbing s => s

/-- `PlayerWallControlStateInner` (src/util/walls.rs). -/
structure PlayerWallControlStateInner where
  side : Side
  pushAwayTimer : ℕ
  wallType : WallSensorResult
deriving DecidableEq

/-- `PlayerWallControlState` (src/util/walls.rs): `Option` of the inner state;
`none` is the detached state. -/
structure PlayerWallControlState where
  wallState : Option PlayerWallControlStateInner
deriving DecidableEq

/-- `PlayerWallControlState::release`: force the detached state. -/
def PlayerWallControlState.release (_s : PlayerWallControlState) : PlayerWallControlState :=
  ⟨none⟩

/-- `PlayerWallControlParams` (src/util/walls.rs). -/
structure PlayerWallControlParams where
  push_away_duration : ℕ
  slide_max_speed : ℚ
  slide_acceleration : ℚ
  climb_max_speed : ℚ
  climb_acceleration : ℚ
  detection_length : ℚ

/-- `PlayerWallControlState::tick` (src/util/walls.rs lines 51-146): advance
the wall-interaction state machine by one frame and report how the player is
interacting with a wall. The five transition blocks run in source order:
attach, push-away release, down release, sensor-loss release, grounded
release, then the output classification. -/
def PlayerWallControlState.tick
    (s : PlayerWallControlState)
    (wallSensorResults : SideMap WallSensorResult)
    (playerIsAirborne : Bool)
    (controlParams : PlayerWallControlParams)
    (horizontalInput : Option Side)
    (horizontalMomentum : Option Side)
    (verticalInput : Option YSide) :
    PlayerWallControlState × Option PlayerWallState :=
  -- Possibly enter the wall state (only while detached and airborne)
  let s1 : PlayerWallControlState :=
    if s.wallState.isNone && playerIsAirborne then
      match (match horizontalMomentum with
             | some m => some m
             | none => horizontalInput) with
      | some playerSide =>
        match wallSensorResults.get playerSide with
        | WallSensorResult.Wall =>
          ⟨some ⟨playerSide, 0, WallSensorResult.Wall⟩⟩
        | WallSensorResult.Ledge =>
          ⟨some ⟨playerSide, 0, WallSensorResult.Ledge⟩⟩
        | _ => s
      | none => s
    else s
  -- Possibly exit: pushing away from the wall for long enough
  let s2 : PlayerWallControlState :=
    match s1.wallState with
    | some ws =>
      let isPushingAway : Bool :=
        match horizontalInput with
        | some pushingSide => decide (pushingSide ≠ ws.side)
        | none => false
      if isPushingAway then
        let timer := FrameCount.increment ws.pushAwayTimer
        if controlParams.push_away_duration ≤ timer then ⟨none⟩
        else ⟨some ⟨ws.side, timer, ws.wallType⟩⟩
      else ⟨some ⟨ws.side, 0, ws.wallType⟩⟩
    | none => s1
  -- Possibly exit: pressing Down
  let s3 : PlayerWallControlState :=
    if verticalInput = some YSide.Down then ⟨none⟩ else s2
  -- Possibly exit: the sensor no longer detects a wall
  let s4 : PlayerWallControlState :=
    match s3.wallState with
    | some ws =>
      match wallSensorResults.get ws.side with
      | WallSensorResult.Step => ⟨none⟩
      | WallSensorResult.NotAWall => ⟨none⟩
      | _ => s3
    | none => s3
  -- Possibly exit: the player is grounded
  let s5 : PlayerWallControlState :=
    if playerIsAirborne then s4 else ⟨none⟩
  -- Interpret the state and directional inputs
  let out : Option PlayerWallState :=
    s5.wallState.map fun ws =>
      let isLedge : Bool :=
        match ws.wallType with
        | WallSensorResult.Ledge => true
        | _ => false
      if isLedge ∧ (verticalInput = some YSide.Up ∨ horizontalInput = some ws.side) then
        PlayerWallState.Climbing ws.side
      else if horizontalInput = some ws.side then
        PlayerWallState.Grabbed ws.side
      else
        PlayerWallState.Sliding ws.side
  (s5, out)

/-- `ForceDecayCurve` (src/player/control_params.rs). The bevy easing curve
`EasingCurve::new(1.0, 0.0, easing).sample_unchecked` is an external
collaborator; it is modelled as the composed sampling function
`sample : ℚ → ℚ` (from 1 at t=0 down to 0 at t=1 for typical easings). -/
structure ForceDecayCurve where
  sample : ℚ → ℚ
  duration : ℕ

/-- `TemporaryForce` (src/player/control_state.rs). -/
structure TemporaryForce where
  age : ℕ
  max : Vec2

/-- `TemporaryForce::eval(curve)`: zero once the age exceeds the duration or
when the duration is zero, otherwise `max * curve(age / duration)`. -/
def TemporaryForce.eval (f : TemporaryForce) (curve : ForceDecayCurve) : Vec2 :=
  if curve.duration < f.age ∨ curve.duration = 0 then Vec2.zero
  else Vec2.smul (curve.sample ((f.age : ℚ) / (curve.duration : ℚ))) f.max

/-- `TemporaryForce::tick`: increment the age. -/
def TemporaryForce.tick (f : TemporaryForce) : TemporaryForce :=
  ⟨FrameCount.increment f.age, f.max⟩

/-- `TemporaryForce::reset(max)`: set the peak value and zero the age. -/
def TemporaryForce.restart (_f : TemporaryForce) (max : Vec2) : TemporaryForce :=
  ⟨0, max⟩

/-- `HorizontalControlParams` (src/player/control_params.rs). -/
structure HorizontalControlParams where
  max_speed : ℚ
  acceleration : ℚ
  deceleration : ℚ

/-- `f32::signum` restricted to the values that can arise here: `1` for
positive values and `+0.0`, `-1` for negative values. (`ℚ` has no negative
zero; the one place the source can produce an `f32` `-0.0` — the target
velocity `-max_speed` when `max_speed == 0` — is handled separately by
`hvTargetSignum`.) -/
def fsignum (q : ℚ) : ℚ := if q < 0 then -1 else 1

/-- The solver's target velocity (src/player/system.rs lines 310-314):
0 with no input, `-max_speed` for Left, `max_speed` for Right. -/
def hvTargetVel (inputDirection : Option Side) (p : HorizontalControlParams) : ℚ :=
  match inputDirection with
  | none => 0
  | some Side.Left => -p.max_speed
  | some Side.Right => p.max_speed

/-- `target_vel.signum()` as computed by the source on `f32` values: for
Left the target is `-max_speed`, whose IEEE signum is `-1` even when
`max_speed == 0` (negative zero); symmetrically for Right it is `1` when
`max_speed == 0` (positive zero). The `none` case is `0.0f32.signum() = 1`. -/
def hvTargetSignum (inputDirection : Option Side) (p : HorizontalControlParams) : ℚ :=
  match inputDirection with
  | none => 1
  | some d => (if 0 ≤ p.max_speed then 1 else -1) * d.signQ

/-- The acceleration magnitude chosen by `compute_next_horizontal_velocity`
(src/player/system.rs lines 316-335), cases in source order. -/
def hvAccelBase (currentVel : ℚ) (inputDirection : Option Side)
    (p : HorizontalControlParams) : ℚ :=
  if currentVel = 0 then p.acceleration
  else if inputDirection = none then p.deceleration
  else if hvTargetSignum inputDirection p ≠ fsignum currentVel then p.deceleration
  else if |currentVel| < p.max_speed then p.acceleration
  else 0

/-- `compute_next_horizontal_velocity` (src/player/system.rs lines 301-349):
accelerate or decelerate the current velocity towards the target velocity,
snapping exactly to the target when the chosen acceleration magnitude more
than covers the remaining gap. -/
def compute_next_horizontal_velocity (currentVel : ℚ) (inputDirection : Option Side)
    (p : HorizontalControlParams) : ℚ :=
  let targetVel := hvTargetVel inputDirection p
  let accelBase := hvAccelBase currentVel inputDirection p
  let goalDelta := targetVel - currentVel
  if |goalDelta| < accelBase then targetVel
  else currentVel + accelBase * fsignum goalDelta

/-- Iterate the horizontal solver with a constant input direction. -/
def hvIter (p : HorizontalControlParams) (inputDirection : Option Side) :
    ℕ → ℚ → ℚ
  | 0, v => v
  | n + 1, v => hvIter p inputDirection n (compute_next_horizontal_velocity v inputDirection p)

/-- The solver state is not overspeeding in the held input direction:
whenever a direction is held, the velocity component in that direction does
not exceed `max_speed`. Outside this regime the solver's case (e)
deliberately holds the velocity forever (preserved momentum), so iteration
cannot reach the target. -/
def hvNoOverspeed (v : ℚ) (inputDirection : Option Side)
    (p : HorizontalControlParams) : Prop :=
  ∀ d, inputDirection = some d → v * d.signQ ≤ p.max_speed

/-- `PlayerControlParams` (src/player/control_params.rs). -/
structure PlayerControlParams where
  run : HorizontalControlParams
  float : HorizontalControlParams
  jump_speed : ℚ
  gravity : ℚ
  coyote_time : ℕ
  jump_input_buffer : ℕ
  max_jumps : ℕ
  jump_cooldown : ℕ
  wall_jump_force_decay : ForceDecayCurve
  wall_jump_input_cooldown : ℕ
  wall_control_params : PlayerWallControlParams

/-- `PlayerControlState` (src/player/control_state.rs). -/
structure PlayerControlState where
  grounded : CapacitiveFlag
  jumping : Bool
  x_when_jumped : Option ℚ
  y_when_jumped : Option ℚ
  lost_jump_due_to_falling : Bool
  own_velocity : Vec2
  jump_requested : CapacitiveFlag
  jumps_remaining : ℕ
  jump_cooldown : ℕ
  wall_sensors : WallSensors
  wall_jump_force : TemporaryForce
  wall_jump_input_cooldown : ℕ
  wall_jump_latest_side : Option Side
  wall_control_state : PlayerWallControlState
  previous_total_velocity : Vec2

/-- One entry of `KinematicCharacterControllerOutput::collisions`:
whether the touched entity is a `Platform` obstacle (the source's
`obstacles.get(collision.entity).is_ok()`), and the contact normal
(`collision.hit.details.map(|hit| hit.normal1)`). -/
structure Collision where
  isPlatform : Bool
  hitNormal : Option Vec2

/-- The external inputs read by one execution of `player_system` for one
player: the keyboard, the previous tick's controller output (grounded flag
and collision list), the ray-cast results that `WallSensors::update` would
record this tick, the transform translation, and the frame delta time.
`leftHeld` stands for `A || ArrowLeft`, `rightHeld` for `D || ArrowRight`. -/
structure TickInput where
  jumpPressed : Bool
  leftHeld : Bool
  rightHeld : Bool
  upHeld : Bool
  downHeld : Bool
  groundedReport : Bool
  collisions : List Collision
  wallHits : WallSensors
  posX : ℚ
  posY : ℚ
  dt : ℚ

/-- `f32::consts::FRAC_1_SQRT_2` (the `f32` nearest `1/sqrt 2`),
as an exact rational: `11863283 / 2^24`. -/
def FRAC_1_SQRT_2 : ℚ := 11863283 / 16777216

/-- Collision response for one reported collision (src/player/system.rs lines
86-103): if the touched entity is a `Platform` and the hit carries contact
details, remove the velocity component along the contact normal
(`own_velocity += -own_velocity.dot(normal) * normal`); otherwise leave the
velocity unchanged. -/
def arrestCollision (v : Vec2) (c : Collision) : Vec2 :=
  if c.isPlatform then
    match c.hitNormal with
    | some normal => v + Vec2.smul (-(v.dot normal)) normal
    | none => v
  else v

/-- The collision-response loop: fold `arrestCollision` over the reported
collisions in report order. -/
def applyCollisions (v : Vec2) (cs : List Collision) : Vec2 :=
  cs.foldl arrestCollision v

/-- `wants_to_jump` (src/player/system.rs lines 49-52): tick the jump-request
buffer with "Space just pressed" and test it against the input buffer window. -/
def tickWantsToJump (p : PlayerControlParams) (st : PlayerControlState)
    (inp : TickInput) : Bool :=
  (st.jump_requested.tick inp.jumpPressed).wasSetWithin p.jump_input_buffer

/-- The grounded capacitive flag after this tick's sync from the controller
output (src/player/system.rs line 58). -/
def tickGrounded (st : PlayerControlState) (inp : TickInput) : CapacitiveFlag :=
  st.grounded.tick inp.groundedReport

/-- Horizontal input (src/player/system.rs lines 66-77): the desired
direction from the keys, suppressed to `none` while the wall-jump input
cooldown is still running and the desired direction equals the side of the
latest wall jump. The cooldown is consulted after its tick (line 62). -/
def tickHorizontalInput (st : PlayerControlState) (inp : TickInput) : Option Side :=
  let desired : Option Side :=
    match inp.leftHeld, inp.rightHeld with
    | true, false => some Side.Left
    | false, true => some Side.Right
    | _, _ => none
  if Cooldown.isReady (Cooldown.tick st.wall_jump_input_cooldown) = false ∧
      desired = st.wall_jump_latest_side then
    none
  else desired

/-- Vertical input (src/player/system.rs lines 78-82). -/
def tickVerticalInput (inp : TickInput) : Option YSide :=
  match inp.upHeld, inp.downHeld with
  | true, false => some YSide.Up
  | false, true => some YSide.Down
  | _, _ => none

/-- `own_velocity` after the collision-response loop. -/
def tickVelAfterCollisions (st : PlayerControlState) (inp : TickInput) : Vec2 :=
  applyCollisions st.own_velocity inp.collisions

/-- The per-side sensor classification computed this tick
(src/player/system.rs lines 124-127), from the freshly recorded hits. -/
def tickSensorState (inp : TickInput) : SideMap WallSensorResult :=
  ⟨inp.wallHits.interpret Side.Right, inp.wallHits.interpret Side.Left⟩

/-- The jump-refund / coyote-loss block (src/player/system.rs lines 130-152):
returns the new `(jumps_remaining, jumping, lost_jump_due_to_falling,
x_when_jumped)`. When grounded, refund the jumps and clear the flags (and
`take()` the jump-start x). Otherwise, once the grounded flag is no longer
recent within `coyote_time` and the player neither already lost a jump nor is
jumping, decrement `jumps_remaining` (saturating) and set the lost flag. -/
def tickRefund (p : PlayerControlParams) (st : PlayerControlState)
    (inp : TickInput) : ℕ × Bool × Bool × Option ℚ :=
  let g := tickGrounded st inp
  if g.isSet then
    (p.max_jumps, false, false, none)
  else if g.wasSetWithin p.coyote_time = false then
    if st.lost_jump_due_to_falling = false ∧ st.jumping = false then
      (st.jumps_remaining - 1, st.jumping, true, st.x_when_jumped)
    else
      (st.jumps_remaining, st.jumping, st.lost_jump_due_to_falling, st.x_when_jumped)
  else
    (st.jumps_remaining, st.jumping, st.lost_jump_due_to_falling, st.x_when_jumped)

/-- Horizontal momentum inferred from the previous total velocity
(src/player/system.rs lines 156-165): `None` when exactly zero, otherwise the
side given by the sign. -/
def tickMomentum (st : PlayerControlState) : Option Side :=
  if st.previous_total_velocity.x = 0 then none
  else if st.previous_total_velocity.x < 0 then some Side.Left
  else some Side.Right

/-- The wall-control state machine advance for this tick
(src/player/system.rs lines 154-174). -/
def tickWallControl (p : PlayerControlParams) (st : PlayerControlState)
    (inp : TickInput) : PlayerWallControlState × Option PlayerWallState :=
  st.wall_control_state.tick
    (tickSensorState inp)
    (!(tickGrounded st inp).isSet)
    p.wall_control_params
    (tickHorizontalInput st inp)
    (tickMomentum st)
    (tickVerticalInput inp)

/-- The wall state reported by the machine this tick. -/
def tickWallState (p : PlayerControlParams) (st : PlayerControlState)
    (inp : TickInput) : Option PlayerWallState :=
  (tickWallControl p st inp).2

/-- `own_velocity.x` recomputed by the horizontal solver
(src/player/system.rs lines 177-192): run profile when grounded, float
profile otherwise; the horizontal input is suppressed while wall-engaged. -/
def tickVx (p : PlayerControlParams) (st : PlayerControlState)
    (inp : TickInput) : ℚ :=
  let filteredInput :=
    if (tickWallState p st inp).isSome then none
    else tickHorizontalInput st inp
  compute_next_horizontal_velocity
    (tickVelAfterCollisions st inp).x
    filteredInput
    (if (tickGrounded st inp).isSet then p.run else p.float)

/-- The gravity / wall-interaction vertical rule (src/player/system.rs lines
194-239): returns the new `own_velocity.y` together with `y_when_jumped`
(which is `take()`n in the free-fall branch once the velocity turns
non-positive). -/
def tickVyYwj (p : PlayerControlParams) (st : PlayerControlState)
    (inp : TickInput) : ℚ × Option ℚ :=
  let vy := (tickVelAfterCollisions st inp).y
  if (tickGrounded st inp).isSet then (0, st.y_when_jumped)
  else
    match tickWallState p st inp with
    | some (PlayerWallState.Grabbed _) =>
      (max (vy + p.gravity) 0, st.y_when_jumped)
    | some (PlayerWallState.Sliding _) =>
      (if -p.gravity ≤ vy then vy + p.gravity
       else if 0 < vy then 0
       else max (vy - p.wall_control_params.slide_acceleration)
                (-p.wall_control_params.slide_max_speed),
       st.y_when_jumped)
    | some (PlayerWallState.Climbing _) =>
      (if vy < p.wall_control_params.climb_max_speed then
         max (min (vy + p.wall_control_params.climb_acceleration)
                  p.wall_control_params.climb_max_speed) 0
       else min (vy + p.gravity) p.wall_control_params.climb_max_speed,
       st.y_when_jumped)
    | none =>
      let vy2 := vy + p.gravity
      if vy2 ≤ 0 then (vy2, none) else (vy2, st.y_when_jumped)

/-- One execution of the body of `player_system` for one player with loaded
params (src/player/system.rs lines 46-292): returns the updated
`PlayerControlState` and the displacement requested from the kinematic
controller (`total velocity * delta_secs`). The sub-steps are the `tick*`
helper functions above, applied in source order; the jump-resolution block
(lines 242-273) then overwrites the affected fields, and the final total
velocity is stored as `previous_total_velocity`. -/
def playerTick (p : PlayerControlParams) (st : PlayerControlState)
    (inp : TickInput) : PlayerControlState × Vec2 :=
  let base : PlayerControlState :=
    { grounded := tickGrounded st inp
      jumping := (tickRefund p st inp).2.1
      x_when_jumped := (tickRefund p st inp).2.2.2
      y_when_jumped := (tickVyYwj p st inp).2
      lost_jump_due_to_falling := (tickRefund p st inp).2.2.1
      own_velocity := ⟨tickVx p st inp, (tickVyYwj p st inp).1⟩
      jump_requested := st.jump_requested.tick inp.jumpPressed
      jumps_remaining := (tickRefund p st inp).1
      jump_cooldown := Cooldown.tick st.jump_cooldown
      wall_sensors := inp.wallHits
      wall_jump_force := st.wall_jump_force.tick
      wall_jump_input_cooldown := Cooldown.tick st.wall_jump_input_cooldown
      wall_jump_latest_side := st.wall_jump_latest_side
      wall_control_state := (tickWallControl p st inp).1
      previous_total_velocity := st.previous_total_velocity }
  let afterJump : PlayerControlState :=
    if tickWantsToJump p st inp && Cooldown.isReady (Cooldown.tick st.jump_cooldown) then
      match tickWallState p st inp with
      | some wallState =>
        -- wall jump (lines 243-262): X kick into the decaying force,
        -- Y kick into own_velocity.y
        let jumpVx := p.run.max_speed * FRAC_1_SQRT_2 * -wallState.side.signQ
        let jumpVy := p.jump_speed * FRAC_1_SQRT_2
        { base with
          wall_jump_force := base.wall_jump_force.restart ⟨jumpVx, 0⟩
          own_velocity := ⟨base.own_velocity.x, jumpVy⟩
          x_when_jumped := some inp.posX
          y_when_jumped := some inp.posY
          jumping := true
          jump_cooldown := Cooldown.restart base.jump_cooldown p.jump_cooldown
          wall_jump_input_cooldown :=
            Cooldown.restart base.wall_jump_input_cooldown p.wall_jump_input_cooldown
          wall_jump_latest_side := some wallState.side
          wall_control_state := base.wall_control_state.release }
      | none =>
        if 0 < base.jumps_remaining then
          -- normal jump (lines 263-272)
          { base with
            own_velocity := ⟨base.own_velocity.x, p.jump_speed⟩
            jumps_remaining := base.jumps_remaining - 1
            x_when_jumped := some inp.posX
            y_when_jumped := some inp.posY
            jumping := true
            jump_cooldown := Cooldown.restart base.jump_cooldown p.jump_cooldown }
        else base
    else base
  let totalVel := afterJump.own_velocity + afterJump.wall_jump_force.eval p.wall_jump_force_decay
  ({ afterJump with previous_total_velocity := totalVel },
   Vec2.smul inp.dt totalVel)

/-- The per-player branch of `player_system` including the params lookup
(src/player/system.rs lines 46 and 293-295): when the params asset is not
loaded, the entire update is skipped and no displacement is requested. -/
def playerUpdate (loadedParams : Option PlayerControlParams)
    (st : PlayerControlState) (inp : TickInput) :
    PlayerControlState × Option Vec2 :=
  match loadedParams with
  | none => (st, none)
  | some p =>
    let r := playerTick p st inp
    (r.1, some r.2)

/-- Iterate `playerTick` with a constant input for `n` ticks. -/
def tickRun (p : PlayerControlParams) (st : PlayerControlState)
    (inp : TickInput) : ℕ → PlayerControlState
  | 0 => st
  | n + 1 => (playerTick p (tickRun p st inp n) inp).1


/-- All-clear sensor hits (no ray hit anything). -/
def emptyWallHits : WallSensors :=
  ⟨⟨false, false⟩, ⟨false, false⟩, ⟨false, false⟩, ⟨false, false⟩⟩

/-- Sensor hits forming the pattern 0b0111 on the right side. -/
def wallHitsRight0111 : WallSensors :=
  ⟨⟨true, false⟩, ⟨true, false⟩, ⟨true, false⟩, ⟨false, false⟩⟩

/-- A concrete parameter set for witness evaluations. -/
def sampleParams : PlayerControlParams where
  run := ⟨5, 1, 1⟩
  float := ⟨4, 1, 1⟩
  jump_speed := 8
  gravity := 0
  coyote_time := 1
  jump_input_buffer := 3
  max_jumps := 3
  jump_cooldown := 4
  wall_jump_force_decay := ⟨fun _ => 0, 0⟩
  wall_jump_input_cooldown := 6
  wall_control_params := ⟨5, 2, 1, 3, 1, 1⟩

/-- A concrete airborne state moving right, next to a right-side wall. -/
def sampleWallJumpState : PlayerControlState where
  grounded := ⟨false, 5⟩
  jumping := false
  x_when_jumped := none
  y_when_jumped := none
  lost_jump_due_to_falling := false
  own_velocity := ⟨1, 0⟩
  jump_requested := ⟨false, 100⟩
  jumps_remaining := 2
  jump_cooldown := 0
  wall_sensors := emptyWallHits
  wall_jump_force := ⟨0, ⟨0, 0⟩⟩
  wall_jump_input_cooldown := 0
  wall_jump_latest_side := none
  wall_control_state := ⟨none⟩
  previous_total_velocity := ⟨1, 0⟩

/-- Input for the wall-jump witness: Space just pressed, airborne, wall
hits on the right. -/
def sampleWallJumpInput : TickInput where
  jumpPressed := true
  leftHeld := false
  rightHeld := false
  upHeld := false
  downHeld := false
  groundedReport := false
  collisions := []
  wallHits := wallHitsRight0111
  posX := 3
  posY := 4
  dt := 1

/-- A freshly grounded state used by the coyote-time scenario. -/
def sampleFallState : PlayerControlState where
  grounded := ⟨true, 0⟩
  jumping := false
  x_when_jumped := none
  y_when_jumped := none
  lost_jump_due_to_falling := false
  own_velocity := ⟨0, 0⟩
  jump_requested := ⟨false, USIZE_MAX⟩
  jumps_remaining := 3
  jump_cooldown := 0
  wall_sensors := emptyWallHits
  wall_jump_force := ⟨0, ⟨0, 0⟩⟩
  wall_jump_input_cooldown := 0
  wall_jump_latest_side := none
  wall_control_state := ⟨none⟩
  previous_total_velocity := ⟨0, 0⟩

/-- Input for the coyote-time scenario: airborne, no keys pressed. -/
def sampleFallInput : TickInput where
  jumpPressed := false
  leftHeld := false
  rightHeld := false
  upHeld := false
  downHeld := false
  groundedReport := false
  collisions := []
  wallHits := emptyWallHits
  posX := 0
  posY := 0
  dt := 1

/-- `USIZE_MAX` as a numeral (for `omega`). -/
theorem USIZE_MAX_eq : USIZE_MAX = 18446744073709551615 := by
  norm_num [USIZE_MAX]

/-- `increment` below the saturation bound is plain successor. -/
theorem FrameCount.increment_eq_succ (n : ℕ) (h : n + 1 ≤ USIZE_MAX) :
    FrameCount.increment n = n + 1 := by
  unfold FrameCount.increment
  exact Nat.min_eq_left h

/-- `increment` never returns 0. -/
theorem FrameCount.increment_pos (n : ℕ) : 1 ≤ FrameCount.increment n := by
  unfold FrameCount.increment
  refine Nat.le_min.mpr ⟨?_, ?_⟩
  · omega
  · rw [USIZE_MAX_eq]; norm_num

/-- C1: for every 4-bit wall-sensor hit pattern on a given side,
`WallSensors::interpret` returns exactly the classification of the spec's
table (0b0001 → Step, 0b0011 → Ledge, 0b0111/0b1111/0b1110 → Wall, the 10
remaining patterns → NotAWall), and the result depends only on the recorded
hit bits for that side. -/
theorem C1_interpret_matches_table :
    ∀ (ws : WallSensors) (side : Side),
      ws.interpret side = specWallClassification (ws.hitFlags side) ∧
      ∀ ws2 : WallSensors,
        ws.s0.get side = ws2.s0.get side → ws.s1.get side = ws2.s1.get side →
        ws.s2.get side = ws2.s2.get side → ws.s3.get side = ws2.s3.get side →
        ws.interpret side = ws2.interpret side := by
  intro ws side
  constructor
  · obtain ⟨⟨a1, a2⟩, ⟨b1, b2⟩, ⟨c1, c2⟩, ⟨d1, d2⟩⟩ := ws
    cases side <;> revert a1 a2 b1 b2 c1 c2 d1 d2 <;> decide
  · intro ws2 h0 h1 h2 h3
    have hp : ws.hitFlags side = ws2.hitFlags side := by
      unfold WallSensors.hitFlags
      rw [h0, h1, h2, h3]
    unfold WallSensors.interpret
    rw [hp]

/-- C1 witness: the table and the bits-only dependence evaluated at the
pattern 0b0111 on the right side. -/
theorem C1_interpret_matches_table_witness :
    (WallSensors.mk ⟨true, false⟩ ⟨true, false⟩ ⟨true, false⟩ ⟨false, false⟩).interpret
        Side.Right =
      specWallClassification
        ((WallSensors.mk ⟨true, false⟩ ⟨true, false⟩ ⟨true, false⟩ ⟨false, false⟩).hitFlags
          Side.Right) ∧
    (WallSensors.mk ⟨true, false⟩ ⟨true, false⟩ ⟨true, false⟩ ⟨false, false⟩).interpret
        Side.Right =
      (WallSensors.mk ⟨true, true⟩ ⟨true, true⟩ ⟨true, true⟩ ⟨false, true⟩).interpret
        Side.Right := by
  have h := C1_interpret_matches_table
    (WallSensors.mk ⟨true, false⟩ ⟨true, false⟩ ⟨true, false⟩ ⟨false, false⟩) Side.Right
  exact ⟨h.1, h.2 (WallSensors.mk ⟨true, true⟩ ⟨true, true⟩ ⟨true, true⟩ ⟨false, true⟩)
    rfl rfl rfl rfl⟩

/-- C3 counterexample: a flag set on one tick and ticked false on the next
has `is_set() = false` but `was_set_within(0) = true` (the internal timer is
not incremented on the release tick itself), refuting the claimed
equivalence of `was_set_within(0)` and `is_set()`; equivalently, for N = 1
the claim demands `was_set_within(0) = false` after one clear tick, but it
is true. -/
theorem C3_counterexample :
    ((CapacitiveFlag.init.tick true).tick false).isSet = false ∧
    ((CapacitiveFlag.init.tick true).tick false).wasSetWithin 0 = true := by
  decide

/-- After a set flag (internal timer 0) is ticked false for `N ≥ 1`
consecutive ticks, the internal timer reads `N - 1`. -/
theorem clearTicks_of_set (g : CapacitiveFlag) (hgv : g.value = true)
    (hg0 : g.timeSinceReleased = 0) :
    ∀ N, 1 ≤ N → N ≤ USIZE_MAX → g.clearTicks N = ⟨false, N - 1⟩ := by
  intro N
  induction N with
  | zero => intro h1 _; exact absurd h1 (by norm_num)
  | succ n ih =>
    intro _ hN
    cases n with
    | zero =>
      simp [CapacitiveFlag.clearTicks, CapacitiveFlag.tick, hgv, hg0]
    | succ m =>
      have hstep : g.clearTicks (m + 1) = ⟨false, m⟩ := ih (by omega) (by omega)
      show (g.clearTicks (m + 1)).tick false = _
      rw [hstep]
      simp only [CapacitiveFlag.tick, if_neg (by simp : ¬(false = true))]
      have hinc : FrameCount.increment m = m + 1 :=
        FrameCount.increment_eq_succ m (by omega)
      simp [hinc]

/-- C3 (amended): `was_set_within(0)` is true iff the flag is set this tick
or was set on the previous tick (it reads true on the release tick as well);
and after a set flag is ticked false for exactly `N ≥ 1` consecutive ticks,
`was_set_within(N)` and `was_set_within(N-1)` are both true, while
`was_set_within(N-2)` is false once `N ≥ 2`. -/
theorem C3_capacitive_window (f g : CapacitiveFlag) (b : Bool) (N : ℕ)
    (hf : f.value = true → f.timeSinceReleased = 0)
    (hgv : g.value = true) (hg0 : g.timeSinceReleased = 0)
    (h1 : 1 ≤ N) (hN : N ≤ USIZE_MAX) :
    ((f.tick b).wasSetWithin 0 = (b || f.value)) ∧
    (g.clearTicks N).wasSetWithin N = true ∧
    (g.clearTicks N).wasSetWithin (N - 1) = true ∧
    (2 ≤ N → (g.clearTicks N).wasSetWithin (N - 2) = false) := by
  have hclear := clearTicks_of_set g hgv hg0 N h1 hN
  refine ⟨?_, ?_, ?_, ?_⟩
  · cases b with
    | true => simp [CapacitiveFlag.tick, CapacitiveFlag.wasSetWithin]
    | false =>
      cases hfv : f.value with
      | true =>
        simp [CapacitiveFlag.tick, CapacitiveFlag.wasSetWithin, hfv, hf hfv]
      | false =>
        simp only [CapacitiveFlag.tick, if_neg (by simp : ¬(false = true)), hfv,
          CapacitiveFlag.wasSetWithin, Bool.false_or]
        simp only [decide_eq_false_iff_not]
        have := FrameCount.increment_pos f.timeSinceReleased
        omega
  · rw [hclear]
    exact decide_eq_true (by omega : N - 1 ≤ N)
  · rw [hclear]
    exact decide_eq_true (by omega : N - 1 ≤ N - 1)
  · intro h2
    rw [hclear]
    exact decide_eq_false (by omega : ¬(N - 1 ≤ N - 2))

/-- C3 witness: the amended window behavior at a concrete flag and N = 3. -/
theorem C3_capacitive_window_witness :
    (((CapacitiveFlag.mk false 7).tick false).wasSetWithin 0 = (false || false)) ∧
    ((CapacitiveFlag.mk true 0).clearTicks 3).wasSetWithin 3 = true ∧
    ((CapacitiveFlag.mk true 0).clearTicks 3).wasSetWithin (3 - 1) = true ∧
    (2 ≤ 3 → ((CapacitiveFlag.mk true 0).clearTicks 3).wasSetWithin (3 - 2) = false) :=
  C3_capacitive_window (CapacitiveFlag.mk false 7) (CapacitiveFlag.mk true 0) false 3
    (by decide) rfl rfl (by norm_num) (by norm_num [USIZE_MAX])

/-- C4: a tick of the wall-control state machine with
`player_is_airborne = false` always ends detached and reports no wall state,
for every starting state, sensor results, params and directional inputs —
so the machine can only be attached, and `tick` can only return a wall
state, while the player is airborne. -/
theorem C4_grounded_always_detaches :
    ∀ (s : PlayerWallControlState) (sensorResults : SideMap WallSensorResult)
      (cp : PlayerWallControlParams) (hi hm : Option Side) (vi : Option YSide),
      (s.tick sensorResults false cp hi hm vi).1 = ⟨none⟩ ∧
      (s.tick sensorResults false cp hi hm vi).2 = none := by
  intro s sensorResults cp hi hm vi
  simp [PlayerWallControlState.tick]

/-- C8: while the `PlayerControlParams` asset is not loaded, the per-tick
update returns the player state unchanged and requests no displacement. -/
theorem C8_unloaded_params_noop :
    ∀ (st : PlayerControlState) (inp : TickInput),
      playerUpdate none st inp = (st, none) := by
  intro st inp
  rfl

/-- Componentwise form of `Vec2` addition. -/
theorem Vec2.add_def (a b : Vec2) : a + b = ⟨a.x + b.x, a.y + b.y⟩ := rfl

/-- C10: the collision-response step leaves the velocity unchanged for any
collision that is not a Platform obstacle or carries no contact details
(and hence for a whole report list of such collisions), and for a
qualifying collision with a unit contact normal `n` it removes exactly the
velocity component along `n` while preserving every component orthogonal
to `n`. -/
theorem C10_collision_response :
    ∀ (v : Vec2) (c : Collision),
      (¬(c.isPlatform = true ∧ c.hitNormal.isSome = true) → arrestCollision v c = v) ∧
      (∀ n : Vec2, c.isPlatform = true → c.hitNormal = some n → n.dot n = 1 →
        (arrestCollision v c).dot n = 0 ∧
        ∀ w : Vec2, w.dot n = 0 → (arrestCollision v c).dot w = v.dot w) ∧
      (∀ cs : List Collision,
        (∀ c2 ∈ cs, ¬(c2.isPlatform = true ∧ c2.hitNormal.isSome = true)) →
        applyCollisions v cs = v) := by
  have skip : ∀ (v : Vec2) (c : Collision),
      ¬(c.isPlatform = true ∧ c.hitNormal.isSome = true) → arrestCollision v c = v := by
    intro v c hc
    unfold arrestCollision
    cases hp : c.isPlatform with
    | false => simp
    | true =>
      cases hn : c.hitNormal with
      | none => simp
      | some n => exact absurd ⟨hp, by rw [hn]; rfl⟩ hc
  intro v c
  refine ⟨skip v c, ?_, ?_⟩
  · intro n hp hn hunit
    have harrest : arrestCollision v c = v + Vec2.smul (-(v.dot n)) n := by
      unfold arrestCollision
      rw [hp, hn]
      simp
    constructor
    · rw [harrest]
      simp only [Vec2.add_def, Vec2.smul, Vec2.dot] at hunit ⊢
      linear_combination (-(v.x * n.x + v.y * n.y)) * hunit
    · intro w hw
      rw [harrest]
      simp only [Vec2.add_def, Vec2.smul, Vec2.dot] at hw ⊢
      linear_combination (-(v.x * n.x + v.y * n.y)) * hw
  · intro cs hcs
    induction cs with
    | nil => rfl
    | cons c2 rest ih =>
      have h2 := hcs c2 (by simp)
      show applyCollisions (arrestCollision v c2) rest = v
      rw [skip v c2 h2]
      exact ih (fun c3 hc3 => hcs c3 (by simp [hc3]))

/-- C10 witness: a non-Platform collision leaves the velocity unchanged; a
Platform collision with normal (1,0) on velocity (-50,7) arrests the x
component and preserves the y component. -/
theorem C10_collision_response_witness :
    arrestCollision ⟨-50, 7⟩ ⟨false, some ⟨1, 0⟩⟩ = ⟨-50, 7⟩ ∧
    (arrestCollision ⟨-50, 7⟩ ⟨true, some ⟨1, 0⟩⟩).dot ⟨1, 0⟩ = 0 ∧
    (arrestCollision ⟨-50, 7⟩ ⟨true, some ⟨1, 0⟩⟩).dot ⟨0, 1⟩ =
      Vec2.dot ⟨-50, 7⟩ ⟨0, 1⟩ ∧
    applyCollisions ⟨-50, 7⟩ [⟨false, some ⟨1, 0⟩⟩] = ⟨-50, 7⟩ := by
  have h1 := (C10_collision_response ⟨-50, 7⟩ ⟨false, some ⟨1, 0⟩⟩).1 (by simp)
  have h2 := (C10_collision_response ⟨-50, 7⟩ ⟨true, some ⟨1, 0⟩⟩).2.1 ⟨1, 0⟩ rfl rfl
    (by norm_num [Vec2.dot])
  have h3 := (C10_collision_response ⟨-50, 7⟩ ⟨false, some ⟨1, 0⟩⟩).2.2
    [⟨false, some ⟨1, 0⟩⟩] (by simp)
  exact ⟨h1, h2.1, h2.2 ⟨0, 1⟩ (by norm_num [Vec2.dot]), h3⟩

/-- C7: the acceleration magnitude used by the horizontal solver is selected
by the first matching case of the source's ordered list: (a) current
velocity exactly 0 → acceleration; (b) no input → deceleration; (c) target
signum differs from current signum → deceleration; (d) |current| <
max_speed → acceleration; (e) otherwise → 0, and in case (e) the solver
returns the current velocity unchanged (no acceleration, no deceleration). -/
theorem C7_accel_precedence :
    ∀ (v : ℚ) (input : Option Side) (p : HorizontalControlParams),
      (v = 0 → hvAccelBase v input p = p.acceleration) ∧
      (v ≠ 0 → input = none → hvAccelBase v input p = p.deceleration) ∧
      (v ≠ 0 → input ≠ none → hvTargetSignum input p ≠ fsignum v →
        hvAccelBase v input p = p.deceleration) ∧
      (v ≠ 0 → input ≠ none → hvTargetSignum input p = fsignum v →
        |v| < p.max_speed → hvAccelBase v input p = p.acceleration) ∧
      (v ≠ 0 → input ≠ none → hvTargetSignum input p = fsignum v →
        p.max_speed ≤ |v| →
        hvAccelBase v input p = 0 ∧
        compute_next_horizontal_velocity v input p = v) := by
  intro v input p
  refine ⟨?_, ?_, ?_, ?_, ?_⟩
  · intro h0
    simp [hvAccelBase, h0]
  · intro h0 hnone
    simp [hvAccelBase, h0, hnone]
  · intro h0 hsome hsign
    simp [hvAccelBase, h0, hsome, hsign]
  · intro h0 hsome hsign hlt
    simp [hvAccelBase, h0, hsome, hsign, hlt]
  · intro h0 hsome hsign hge
    have hbase : hvAccelBase v input p = 0 := by
      simp [hvAccelBase, h0, hsome, hsign, not_lt.mpr hge]
    refine ⟨hbase, ?_⟩
    unfold compute_next_horizontal_velocity
    rw [hbase]
    rw [if_neg (not_lt.mpr (abs_nonneg (hvTargetVel input p - v)))]
    ring

/-- C7 witness: case (e) at current velocity 7, input Right,
max speed 5: acceleration 0 and the velocity is preserved. -/
theorem C7_accel_precedence_witness :
    hvAccelBase 7 (some Side.Right) ⟨5, 2, 3⟩ = 0 ∧
    compute_next_horizontal_velocity 7 (some Side.Right) ⟨5, 2, 3⟩ = 7 :=
  (C7_accel_precedence 7 (some Side.Right) ⟨5, 2, 3⟩).2.2.2.2
    (by norm_num) (by simp)
    (by norm_num [hvTargetSignum, fsignum, Side.signQ])
    (by norm_num)

/-- With non-negative acceleration and deceleration, the horizontal
solver's result lies between the current velocity and the target velocity. -/
theorem hv_result_between (v : ℚ) (input : Option Side) (p : HorizontalControlParams)
    (ha : 0 ≤ p.acceleration) (hd : 0 ≤ p.deceleration) :
    min v (hvTargetVel input p) ≤ compute_next_horizontal_velocity v input p ∧
    compute_next_horizontal_velocity v input p ≤ max v (hvTargetVel input p) := by
  have hbase : 0 ≤ hvAccelBase v input p := by
    unfold hvAccelBase
    split_ifs <;> first | exact ha | exact hd | norm_num
  unfold compute_next_horizontal_velocity
  by_cases hsnap : |hvTargetVel input p - v| < hvAccelBase v input p
  · rw [if_pos hsnap]
    exact ⟨min_le_right _ _, le_max_right _ _⟩
  · rw [if_neg hsnap]
    have hble := le_of_not_lt hsnap
    rcases lt_trichotomy (hvTargetVel input p - v) 0 with hlt | heq | hgt
    · rw [abs_of_neg hlt] at hble
      simp only [fsignum]
      rw [if_pos hlt]
      constructor
      · refine le_trans (min_le_right _ _) ?_
        linarith
      · refine le_trans ?_ (le_max_left _ _)
        linarith
    · have hb0 : hvAccelBase v input p = 0 :=
        le_antisymm (by rw [heq] at hble; simpa using hble) hbase
      have hveq : hvTargetVel input p = v := by linarith
      rw [hb0]
      constructor
      · simp [hveq]
      · simp [hveq]
    · rw [abs_of_pos hgt] at hble
      simp only [fsignum]
      rw [if_neg (by linarith : ¬(hvTargetVel input p - v < 0))]
      constructor
      · refine le_trans (min_le_left _ _) ?_
        linarith
      · refine le_trans ?_ (le_max_right _ _)
        linarith

/-- C9 counterexample: with non-negative acceleration (5) and deceleration
(0) but a negative `max_speed` (-3), from current velocity 0 with input
Right the solver snaps to the target `-3`, whose magnitude 3 exceeds
`max(|current|, max_speed) = max(0, -3) = 0` — refuting the claimed bound
as stated. -/
theorem C9_counterexample :
    (0:ℚ) ≤ 5 ∧ (0:ℚ) ≤ 0 ∧
    compute_next_horizontal_velocity 0 (some Side.Right) ⟨-3, 5, 0⟩ = -3 ∧
    ¬(|compute_next_horizontal_velocity 0 (some Side.Right) ⟨-3, 5, 0⟩| ≤
        max |(0:ℚ)| (-3)) := by
  norm_num [compute_next_horizontal_velocity, hvAccelBase, hvTargetVel]

/-- C9 (amended): for non-negative acceleration and deceleration the
solver's result always lies between the current velocity and the target
velocity, so its magnitude never exceeds `max(|current|, |max_speed|)`
(the absolute value on `max_speed` is forced by the counterexample with a
negative configured `max_speed`). -/
theorem C9_result_bounded (v : ℚ) (input : Option Side) (p : HorizontalControlParams)
    (ha : 0 ≤ p.acceleration) (hd : 0 ≤ p.deceleration) :
    min v (hvTargetVel input p) ≤ compute_next_horizontal_velocity v input p ∧
    compute_next_horizontal_velocity v input p ≤ max v (hvTargetVel input p) ∧
    |compute_next_horizontal_velocity v input p| ≤ max |v| |p.max_speed| := by
  have hted : |hvTargetVel input p| ≤ |p.max_speed| := by
    rcases input with _ | d
    · simp [hvTargetVel, abs_nonneg]
    · cases d <;> simp [hvTargetVel, abs_neg]
  have hbetween := hv_result_between v input p ha hd
  refine ⟨hbetween.1, hbetween.2, ?_⟩
  have h1 := hbetween.1
  have h2 := hbetween.2
  rw [abs_le]
  constructor
  · have hlow : -(max |v| |p.max_speed|) ≤ min v (hvTargetVel input p) := by
      refine le_min ?_ ?_
      · have ha1 := neg_abs_le v
        have ha2 := le_max_left |v| |p.max_speed|
        linarith
      · have ha1 := neg_abs_le (hvTargetVel input p)
        have ha2 := le_max_right |v| |p.max_speed|
        linarith [hted]
    linarith
  · have hhigh : max v (hvTargetVel input p) ≤ max |v| |p.max_speed| :=
      max_le (le_trans (le_abs_self v) (le_max_left _ _))
        (le_trans (le_abs_self _) (le_trans hted (le_max_right _ _)))
    linarith

/-- C9 witness: the bounds at current velocity 10, input Right, params
(max 5, accel 1, decel 2). -/
theorem C9_result_bounded_witness :
    min 10 (hvTargetVel (some Side.Right) ⟨5, 1, 2⟩) ≤
      compute_next_horizontal_velocity 10 (some Side.Right) ⟨5, 1, 2⟩ ∧
    compute_next_horizontal_velocity 10 (some Side.Right) ⟨5, 1, 2⟩ ≤
      max 10 (hvTargetVel (some Side.Right) ⟨5, 1, 2⟩) ∧
    |compute_next_horizontal_velocity 10 (some Side.Right) ⟨5, 1, 2⟩| ≤
      max |(10:ℚ)| |(5:ℚ)| :=
  C9_result_bounded 10 (some Side.Right) ⟨5, 1, 2⟩ (by norm_num) (by norm_num)

/-- The target velocity itself is never overspeeding. -/
theorem hvNoOverspeed_target (input : Option Side) (p : HorizontalControlParams) :
    hvNoOverspeed (hvTargetVel input p) input p := by
  intro d hd
  subst hd
  cases d <;> simp [hvTargetVel, Side.signQ]

/-- One solver step preserves the no-overspeed regime (the result stays
between the current velocity and the target). -/
theorem hvNoOverspeed_step (v : ℚ) (input : Option Side) (p : HorizontalControlParams)
    (ha : 0 ≤ p.acceleration) (hd : 0 ≤ p.deceleration)
    (hv : hvNoOverspeed v input p) :
    hvNoOverspeed (compute_next_horizontal_velocity v input p) input p := by
  intro d hd'
  subst hd'
  have hb := hv_result_between v (some d) p ha hd
  have hvd := hv d rfl
  cases d with
  | Right =>
    have ht : hvTargetVel (some Side.Right) p = p.max_speed := rfl
    simp only [Side.signQ, mul_one] at hvd ⊢
    have h2 := hb.2
    rw [ht] at h2
    have := max_le hvd (le_refl p.max_speed)
    calc compute_next_horizontal_velocity v (some Side.Right) p
        ≤ max v p.max_speed := h2
      _ ≤ p.max_speed := by
          apply max_le _ (le_refl _)
          simpa using hvd
  | Left =>
    have ht : hvTargetVel (some Side.Left) p = -p.max_speed := rfl
    simp only [Side.signQ, mul_neg, mul_one] at hvd ⊢
    have h1 := hb.1
    rw [ht] at h1
    have hmin : -p.max_speed ≤ min v (-p.max_speed) := by
      refine le_min ?_ (le_refl _)
      linarith
    linarith

/-- In the no-overspeed regime, away from the target, the selected
acceleration magnitude is the configured acceleration or deceleration
(never the momentum-preserving 0 of case (e)). -/
theorem hvAccelBase_acc_or_dec (v : ℚ) (input : Option Side)
    (p : HorizontalControlParams) (hm : 0 ≤ p.max_speed)
    (hv : hvNoOverspeed v input p) (hne : v ≠ hvTargetVel input p) :
    hvAccelBase v input p = p.acceleration ∨
    hvAccelBase v input p = p.deceleration := by
  unfold hvAccelBase
  by_cases h0 : v = 0
  · rw [if_pos h0]; exact Or.inl rfl
  · rw [if_neg h0]
    rcases input with _ | d
    · rw [if_pos rfl]; exact Or.inr rfl
    · rw [if_neg (by simp)]
      by_cases hsig : hvTargetSignum (some d) p ≠ fsignum v
      · rw [if_pos hsig]; exact Or.inr rfl
      · rw [if_neg hsig]
        push_neg at hsig
        have hts : hvTargetSignum (some d) p = d.signQ := by
          simp [hvTargetSignum, if_pos hm]
        have habs : |v| < p.max_speed := by
          cases d with
          | Right =>
            have hfs : fsignum v = 1 := by rw [← hsig, hts]; rfl
            have hvpos : 0 < v := by
              by_contra hc
              push_neg at hc
              have : v < 0 := lt_of_le_of_ne hc h0
              simp [fsignum, if_pos this] at hfs
              exact absurd hfs (by norm_num)
            have hvle : v ≤ p.max_speed := by
              have := hv Side.Right rfl
              simpa [Side.signQ] using this
            have hne' : v ≠ p.max_speed := hne
            rw [abs_of_pos hvpos]
            exact lt_of_le_of_ne hvle hne'
          | Left =>
            have hfs : fsignum v = -1 := by rw [← hsig, hts]; rfl
            have hvneg : v < 0 := by
              by_contra hc
              push_neg at hc
              simp [fsignum, not_lt.mpr hc] at hfs
              exact absurd hfs (by norm_num)
            have hvle : -v ≤ p.max_speed := by
              have := hv Side.Left rfl
              have h2 : v * Side.signQ Side.Left = -v := by
                simp [Side.signQ]
              rw [h2] at this
              exact this
            have hne' : v ≠ -p.max_speed := hne
            rw [abs_of_neg hvneg]
            exact lt_of_le_of_ne hvle (by intro hc; exact hne' (by linarith))
        rw [if_pos habs]
        exact Or.inl rfl

/-- A non-snapping step with magnitude `b ≥ δ` towards the target reduces
the gap by at least `δ`. -/
theorem hvStep_toward (v t b δ : ℚ) (hb : δ ≤ b) (hδ : 0 < δ) (hne : v ≠ t)
    (hnb : ¬(|t - v| < b)) :
    |t - (v + b * fsignum (t - v))| ≤ |t - v| - δ := by
  have hble := le_of_not_lt hnb
  rcases lt_trichotomy (t - v) 0 with hlt | h0 | hgt
  · rw [abs_of_neg hlt] at hble
    simp only [fsignum]
    rw [if_pos hlt]
    rw [abs_of_neg hlt]
    rw [abs_of_nonpos (by linarith : t - (v + b * -1) ≤ 0)]
    linarith
  · exact absurd (by linarith : v = t) hne
  · rw [abs_of_pos hgt] at hble
    simp only [fsignum]
    rw [if_neg (by linarith : ¬(t - v < 0))]
    rw [abs_of_pos hgt]
    rw [abs_of_nonneg (by linarith : 0 ≤ t - (v + b * 1))]
    linarith

/-- Progress lemma: away from the target, in the no-overspeed regime with
positive acceleration and deceleration, one solver step either reaches the
target exactly or stays in the regime while shrinking the gap by at least
`min acceleration deceleration`. -/
theorem hvStep_progress (p : HorizontalControlParams) (input : Option Side)
    (ha : 0 < p.acceleration) (hd : 0 < p.deceleration) (hm : 0 ≤ p.max_speed)
    (v : ℚ) (hv : hvNoOverspeed v input p) (hne : v ≠ hvTargetVel input p) :
    compute_next_horizontal_velocity v input p = hvTargetVel input p ∨
    (hvNoOverspeed (compute_next_horizontal_velocity v input p) input p ∧
     |hvTargetVel input p - compute_next_horizontal_velocity v input p| ≤
       |hvTargetVel input p - v| - min p.acceleration p.deceleration) := by
  have hδb : min p.acceleration p.deceleration ≤ hvAccelBase v input p := by
    rcases hvAccelBase_acc_or_dec v input p hm hv hne with h | h
    · rw [h]; exact min_le_left _ _
    · rw [h]; exact min_le_right _ _
  by_cases hsnap : |hvTargetVel input p - v| < hvAccelBase v input p
  · left
    unfold compute_next_horizontal_velocity
    rw [if_pos hsnap]
  · right
    refine ⟨hvNoOverspeed_step v input p (le_of_lt ha) (le_of_lt hd) hv, ?_⟩
    have hgap := hvStep_toward v (hvTargetVel input p) (hvAccelBase v input p)
      (min p.acceleration p.deceleration) hδb (lt_min ha hd) hne hsnap
    unfold compute_next_horizontal_velocity
    rw [if_neg hsnap]
    exact hgap

/-- The solver holds the target exactly once reached. -/
theorem hvIdem (p : HorizontalControlParams) (input : Option Side)
    (ha : 0 < p.acceleration) (hm : 0 ≤ p.max_speed) :
    compute_next_horizontal_velocity (hvTargetVel input p) input p =
      hvTargetVel input p := by
  rcases input with _ | d
  · unfold compute_next_horizontal_velocity hvTargetVel hvAccelBase
    norm_num
    intro h
    exact absurd ha (by simpa using h)
  · by_cases hm0 : p.max_speed = 0
    · cases d <;>
        (unfold compute_next_horizontal_velocity hvTargetVel hvAccelBase
         simp [hm0]
         intro h
         exact absurd ha (by simpa using h))
    · have hmpos : 0 < p.max_speed := lt_of_le_of_ne hm (Ne.symm hm0)
      cases d with
      | Right =>
        have ht : hvTargetVel (some Side.Right) p = p.max_speed := rfl
        have hbase : hvAccelBase p.max_speed (some Side.Right) p = 0 := by
          unfold hvAccelBase
          rw [if_neg (by linarith : ¬(p.max_speed = 0)), if_neg (by simp)]
          rw [if_neg ?hsig, if_neg ?habs]
          case hsig =>
            push_neg
            simp [hvTargetSignum, if_pos hm, fsignum, not_lt.mpr (le_of_lt hmpos),
              Side.signQ]
          case habs =>
            rw [abs_of_pos hmpos]
            exact lt_irrefl _
        unfold compute_next_horizontal_velocity
        rw [ht, hbase]
        rw [if_neg (not_lt.mpr (abs_nonneg _))]
        ring
      | Left =>
        have ht : hvTargetVel (some Side.Left) p = -p.max_speed := rfl
        have hbase : hvAccelBase (-p.max_speed) (some Side.Left) p = 0 := by
          unfold hvAccelBase
          rw [if_neg (by linarith : ¬(-p.max_speed = 0)), if_neg (by simp)]
          rw [if_neg ?hsig, if_neg ?habs]
          case hsig =>
            push_neg
            simp [hvTargetSignum, if_pos hm, fsignum, if_pos (by linarith :
              -p.max_speed < 0), Side.signQ, hmpos]
          case habs =>
            rw [abs_of_neg (by linarith : -p.max_speed < 0)]
            simp
        unfold compute_next_horizontal_velocity
        rw [ht, hbase]
        rw [if_neg (not_lt.mpr (abs_nonneg _))]
        ring

/-- Peeling the last step of an iteration. -/
theorem hvIter_succ_out (p : HorizontalControlParams) (input : Option Side) :
    ∀ (n : ℕ) (v : ℚ),
      hvIter p input (n + 1) v =
        compute_next_horizontal_velocity (hvIter p input n v) input p := by
  intro n
  induction n with
  | zero => intro v; rfl
  | succ m ih =>
    intro v
    show hvIter p input (m + 1) (compute_next_horizontal_velocity v input p) = _
    rw [ih]
    rfl

/-- Convergence induction: once the gap fits inside `n` steps of size
`min acceleration deceleration`, `n` iterations reach the target exactly. -/
theorem hv_conv_aux (p : HorizontalControlParams) (input : Option Side)
    (ha : 0 < p.acceleration) (hd : 0 < p.deceleration) (hm : 0 ≤ p.max_speed) :
    ∀ (n : ℕ) (v : ℚ), hvNoOverspeed v input p →
      |hvTargetVel input p - v| ≤ n * min p.acceleration p.deceleration →
      hvIter p input n v = hvTargetVel input p := by
  intro n
  induction n with
  | zero =>
    intro v _ hgap
    have h0 : |hvTargetVel input p - v| = 0 :=
      le_antisymm (by simpa using hgap) (abs_nonneg _)
    have := abs_eq_zero.mp h0
    show v = hvTargetVel input p
    linarith
  | succ n ih =>
    intro v hv hgap
    have hδ : 0 < min p.acceleration p.deceleration := lt_min ha hd
    by_cases hveq : v = hvTargetVel input p
    · show hvIter p input n (compute_next_horizontal_velocity v input p) = _
      rw [hveq, hvIdem p input ha hm]
      refine ih (hvTargetVel input p) (hvNoOverspeed_target input p) ?_
      simp only [sub_self, abs_zero]
      positivity
    · rcases hvStep_progress p input ha hd hm v hv hveq with hstep | ⟨hv2, hgap2⟩
      · show hvIter p input n (compute_next_horizontal_velocity v input p) = _
        rw [hstep]
        refine ih (hvTargetVel input p) (hvNoOverspeed_target input p) ?_
        simp only [sub_self, abs_zero]
        positivity
      · show hvIter p input n (compute_next_horizontal_velocity v input p) = _
        refine ih _ hv2 ?_
        push_cast at hgap ⊢
        linarith

/-- C2 counterexample: at current velocity 10, input Right, max speed 5
(acceleration and deceleration both 1), the solver is parked: one call
returns 10 (not the target 5) and five iterated calls still return 10, so
iteration never converges to the target — refuting the claim for a current
velocity beyond max speed in the input direction. -/
theorem C2_counterexample :
    compute_next_horizontal_velocity 10 (some Side.Right) ⟨5, 1, 1⟩ = 10 ∧
    hvIter ⟨5, 1, 1⟩ (some Side.Right) 5 10 = 10 ∧
    hvTargetVel (some Side.Right) ⟨5, 1, 1⟩ = 5 ∧ (10:ℚ) ≠ 5 := by
  have hbase : hvAccelBase 10 (some Side.Right) ⟨5, 1, 1⟩ = 0 := by
    norm_num [hvAccelBase, hvTargetSignum, fsignum, Side.signQ, Option.some_ne_none]
  have h1 : compute_next_horizontal_velocity 10 (some Side.Right) ⟨5, 1, 1⟩ = 10 := by
    unfold compute_next_horizontal_velocity
    rw [hbase]
    norm_num [hvTargetVel]
  refine ⟨h1, ?_, rfl, by norm_num⟩
  show hvIter ⟨5, 1, 1⟩ (some Side.Right) 4
      (compute_next_horizontal_velocity 10 (some Side.Right) ⟨5, 1, 1⟩) = 10
  rw [h1]
  show hvIter ⟨5, 1, 1⟩ (some Side.Right) 3
      (compute_next_horizontal_velocity 10 (some Side.Right) ⟨5, 1, 1⟩) = 10
  rw [h1]
  show hvIter ⟨5, 1, 1⟩ (some Side.Right) 2
      (compute_next_horizontal_velocity 10 (some Side.Right) ⟨5, 1, 1⟩) = 10
  rw [h1]
  show hvIter ⟨5, 1, 1⟩ (some Side.Right) 1
      (compute_next_horizontal_velocity 10 (some Side.Right) ⟨5, 1, 1⟩) = 10
  rw [h1]
  show hvIter ⟨5, 1, 1⟩ (some Side.Right) 0
      (compute_next_horizontal_velocity 10 (some Side.Right) ⟨5, 1, 1⟩) = 10
  rw [h1]
  rfl

/-- C2 (amended): with positive acceleration and deceleration, a
non-negative configured max speed, and a current velocity that is not
already beyond max speed in the held input direction, iterating the solver
with constant input reaches exactly the target velocity and then holds it
forever; independently, the solver is idempotent at the target, and any
single call whose chosen acceleration magnitude exceeds the remaining gap
snaps exactly to the target (never past it). Outside the no-overspeed
regime the solver deliberately parks (see the counterexample). -/
theorem C2_solver_converges (p : HorizontalControlParams) (input : Option Side)
    (v : ℚ) (ha : 0 < p.acceleration) (hd : 0 < p.deceleration)
    (hm : 0 ≤ p.max_speed) (hv : hvNoOverspeed v input p) :
    (hvAccelBase v input p > |hvTargetVel input p - v| →
      compute_next_horizontal_velocity v input p = hvTargetVel input p) ∧
    compute_next_horizontal_velocity (hvTargetVel input p) input p =
      hvTargetVel input p ∧
    (∃ N, ∀ m, N ≤ m → hvIter p input m v = hvTargetVel input p) := by
  refine ⟨?_, hvIdem p input ha hm, ?_⟩
  · intro hsnap
    unfold compute_next_horizontal_velocity
    rw [if_pos hsnap]
  · have hδ : 0 < min p.acceleration p.deceleration := lt_min ha hd
    set δ := min p.acceleration p.deceleration with hδdef
    refine ⟨⌈|hvTargetVel input p - v| / δ⌉₊, ?_⟩
    intro m hm'
    have hN : |hvTargetVel input p - v| ≤ (⌈|hvTargetVel input p - v| / δ⌉₊ : ℚ) * δ := by
      rw [← div_le_iff₀ hδ]
      exact Nat.le_ceil _
    have hgapm : |hvTargetVel input p - v| ≤ (m : ℚ) * δ := by
      refine le_trans hN ?_
      have : ((⌈|hvTargetVel input p - v| / δ⌉₊ : ℕ) : ℚ) ≤ (m : ℚ) := by
        exact_mod_cast hm'
      nlinarith [le_of_lt hδ]
    exact hv_conv_aux p input ha hd hm m v hv hgapm

/-- C2 witness: the amended convergence at current velocity -3, input
Right, params (max 5, accel 1, decel 1). -/
theorem C2_solver_converges_witness :
    (hvAccelBase (-3) (some Side.Right) ⟨5, 1, 1⟩ >
        |hvTargetVel (some Side.Right) ⟨5, 1, 1⟩ - (-3)| →
      compute_next_horizontal_velocity (-3) (some Side.Right) ⟨5, 1, 1⟩ =
        hvTargetVel (some Side.Right) ⟨5, 1, 1⟩) ∧
    compute_next_horizontal_velocity (hvTargetVel (some Side.Right) ⟨5, 1, 1⟩)
        (some Side.Right) ⟨5, 1, 1⟩ =
      hvTargetVel (some Side.Right) ⟨5, 1, 1⟩ ∧
    (∃ N, ∀ m, N ≤ m →
      hvIter ⟨5, 1, 1⟩ (some Side.Right) m (-3) =
        hvTargetVel (some Side.Right) ⟨5, 1, 1⟩) :=
  C2_solver_converges ⟨5, 1, 1⟩ (some Side.Right) (-3) (by norm_num) (by norm_num)
    (by norm_num)
    (by intro d hd; cases hd; norm_num [Side.signQ])

/-- C5: if on a tick the player wants to jump, the (ticked) jump cooldown is
ready, and the wall state machine reports a wall state `ws`, then after the
tick: the decaying wall-jump force's peak is
`(run.max_speed * (1/sqrt 2) * -sign(ws.side), 0)` with its age zeroed,
while `own_velocity.x` is exactly the horizontal-solver output (the X kick
is not applied to it); `own_velocity.y = jump_speed * (1/sqrt 2)`; both the
jump cooldown and the wall-jump input cooldown are reset to their
configured durations; the latest wall-jump side records `ws.side`; and the
wall state machine is forced to detached. -/
theorem C5_wall_jump_effects (p : PlayerControlParams) (st : PlayerControlState)
    (inp : TickInput) (ws : PlayerWallState)
    (hw : tickWantsToJump p st inp = true)
    (hc : Cooldown.isReady (Cooldown.tick st.jump_cooldown) = true)
    (hws : tickWallState p st inp = some ws) :
    (playerTick p st inp).1.wall_jump_force =
      ⟨0, ⟨p.run.max_speed * FRAC_1_SQRT_2 * -ws.side.signQ, 0⟩⟩ ∧
    (playerTick p st inp).1.own_velocity.x = tickVx p st inp ∧
    (playerTick p st inp).1.own_velocity.y = p.jump_speed * FRAC_1_SQRT_2 ∧
    (playerTick p st inp).1.jump_cooldown = p.jump_cooldown ∧
    (playerTick p st inp).1.wall_jump_input_cooldown = p.wall_jump_input_cooldown ∧
    (playerTick p st inp).1.wall_jump_latest_side = some ws.side ∧
    (playerTick p st inp).1.wall_control_state = ⟨none⟩ := by
  unfold playerTick
  rw [hws, hw, hc]
  simp [TemporaryForce.restart, Cooldown.restart, PlayerWallControlState.release]

/-- C5 witness: the wall-jump effects on a concrete airborne state next to
a right-side wall, with Space just pressed and a ready cooldown. -/
theorem C5_wall_jump_effects_witness :
    (playerTick sampleParams sampleWallJumpState sampleWallJumpInput).1.wall_jump_force =
      ⟨0, ⟨sampleParams.run.max_speed * FRAC_1_SQRT_2 *
        -(PlayerWallState.Sliding Side.Right).side.signQ, 0⟩⟩ ∧
    (playerTick sampleParams sampleWallJumpState sampleWallJumpInput).1.own_velocity.x =
      tickVx sampleParams sampleWallJumpState sampleWallJumpInput ∧
    (playerTick sampleParams sampleWallJumpState sampleWallJumpInput).1.own_velocity.y =
      sampleParams.jump_speed * FRAC_1_SQRT_2 ∧
    (playerTick sampleParams sampleWallJumpState sampleWallJumpInput).1.jump_cooldown =
      sampleParams.jump_cooldown ∧
    (playerTick sampleParams sampleWallJumpState sampleWallJumpInput).1.wall_jump_input_cooldown =
      sampleParams.wall_jump_input_cooldown ∧
    (playerTick sampleParams sampleWallJumpState sampleWallJumpInput).1.wall_jump_latest_side =
      some (PlayerWallState.Sliding Side.Right).side ∧
    (playerTick sampleParams sampleWallJumpState sampleWallJumpInput).1.wall_control_state =
      ⟨none⟩ :=
  C5_wall_jump_effects sampleParams sampleWallJumpState sampleWallJumpInput
    (PlayerWallState.Sliding Side.Right) (by decide) (by decide) (by decide)

/-- One airborne, jump-free tick: the grounded timer advances, the
jump-request buffer stays saturated, and `jumps_remaining` /
`lost_jump_due_to_falling` follow the coyote-time rule of the refund block
(unchanged while the grounded flag is recent; decremented exactly when the
window first expires with both flags clear; frozen once the lost flag is
set). -/
theorem playerTick_falling_step (p : PlayerControlParams) (st : PlayerControlState)
    (inp : TickInput) (m : ℕ)
    (hgr : inp.groundedReport = false) (hjp : inp.jumpPressed = false)
    (hbuf : p.jump_input_buffer < USIZE_MAX)
    (hreq : st.jump_requested = ⟨false, USIZE_MAX⟩)
    (hg : st.grounded = ⟨false, m⟩) :
    (playerTick p st inp).1.grounded = ⟨false, FrameCount.increment m⟩ ∧
    (playerTick p st inp).1.jump_requested = ⟨false, USIZE_MAX⟩ ∧
    (playerTick p st inp).1.jumping = st.jumping ∧
    (FrameCount.increment m ≤ p.coyote_time →
      (playerTick p st inp).1.jumps_remaining = st.jumps_remaining ∧
      (playerTick p st inp).1.lost_jump_due_to_falling = st.lost_jump_due_to_falling) ∧
    (p.coyote_time < FrameCount.increment m →
      st.lost_jump_due_to_falling = false → st.jumping = false →
      (playerTick p st inp).1.jumps_remaining = st.jumps_remaining - 1 ∧
      (playerTick p st inp).1.lost_jump_due_to_falling = true) ∧
    (p.coyote_time < FrameCount.increment m →
      st.lost_jump_due_to_falling = true →
      (playerTick p st inp).1.jumps_remaining = st.jumps_remaining ∧
      (playerTick p st inp).1.lost_jump_due_to_falling = true) := by
  have hreq2 : st.jump_requested.tick inp.jumpPressed = ⟨false, USIZE_MAX⟩ := by
    rw [hreq, hjp]
    unfold CapacitiveFlag.tick
    simp only [Bool.false_eq_true, if_false]
    have : FrameCount.increment USIZE_MAX = USIZE_MAX := by
      unfold FrameCount.increment
      exact Nat.min_eq_right (Nat.le_succ _)
    simp [this]
  have hnj : tickWantsToJump p st inp = false := by
    unfold tickWantsToJump
    rw [hreq2]
    unfold CapacitiveFlag.wasSetWithin
    simp only [decide_eq_false_iff_not]
    omega
  have hground : tickGrounded st inp = ⟨false, FrameCount.increment m⟩ := by
    unfold tickGrounded
    rw [hg, hgr]
    unfold CapacitiveFlag.tick
    simp
  have hproj :
      (playerTick p st inp).1.grounded = tickGrounded st inp ∧
      (playerTick p st inp).1.jump_requested = st.jump_requested.tick inp.jumpPressed ∧
      (playerTick p st inp).1.jumping = (tickRefund p st inp).2.1 ∧
      (playerTick p st inp).1.jumps_remaining = (tickRefund p st inp).1 ∧
      (playerTick p st inp).1.lost_jump_due_to_falling = (tickRefund p st inp).2.2.1 := by
    unfold playerTick
    rw [hnj]
    simp
  refine ⟨by rw [hproj.1, hground], by rw [hproj.2.1, hreq2], ?_, ?_, ?_, ?_⟩
  · rw [hproj.2.2.1]
    unfold tickRefund
    rw [hground]
    simp only [CapacitiveFlag.isSet, CapacitiveFlag.wasSetWithin, Bool.false_eq_true,
      if_false]
    split_ifs <;> rfl
  · intro hle
    rw [hproj.2.2.2.1, hproj.2.2.2.2]
    unfold tickRefund
    rw [hground]
    simp only [CapacitiveFlag.isSet, CapacitiveFlag.wasSetWithin, Bool.false_eq_true,
      if_false, decide_eq_true hle]
    simp
  · intro hlt hl hj
    rw [hproj.2.2.2.1, hproj.2.2.2.2]
    unfold tickRefund
    rw [hground]
    simp only [CapacitiveFlag.isSet, CapacitiveFlag.wasSetWithin, Bool.false_eq_true,
      if_false, decide_eq_false (not_le.mpr hlt)]
    simp [hl, hj]
  · intro hlt hl
    rw [hproj.2.2.2.1, hproj.2.2.2.2]
    unfold tickRefund
    rw [hground]
    simp only [CapacitiveFlag.isSet, CapacitiveFlag.wasSetWithin, Bool.false_eq_true,
      if_false, decide_eq_false (not_le.mpr hlt)]
    simp [hl]

/-- The first airborne tick right after a grounded one: the grounded timer
stays 0 (release tick), and the refund block leaves the jump resources
unchanged (the flag is trivially recent). -/
theorem playerTick_falling_first (p : PlayerControlParams) (st : PlayerControlState)
    (inp : TickInput)
    (hgr : inp.groundedReport = false) (hjp : inp.jumpPressed = false)
    (hbuf : p.jump_input_buffer < USIZE_MAX)
    (hreq : st.jump_requested = ⟨false, USIZE_MAX⟩)
    (hg : st.grounded = ⟨true, 0⟩) :
    (playerTick p st inp).1.grounded = ⟨false, 0⟩ ∧
    (playerTick p st inp).1.jump_requested = ⟨false, USIZE_MAX⟩ ∧
    (playerTick p st inp).1.jumping = st.jumping ∧
    (playerTick p st inp).1.jumps_remaining = st.jumps_remaining ∧
    (playerTick p st inp).1.lost_jump_due_to_falling = st.lost_jump_due_to_falling := by
  have hreq2 : st.jump_requested.tick inp.jumpPressed = ⟨false, USIZE_MAX⟩ := by
    rw [hreq, hjp]
    unfold CapacitiveFlag.tick
    simp only [Bool.false_eq_true, if_false]
    have : FrameCount.increment USIZE_MAX = USIZE_MAX := by
      unfold FrameCount.increment
      exact Nat.min_eq_right (Nat.le_succ _)
    simp [this]
  have hnj : tickWantsToJump p st inp = false := by
    unfold tickWantsToJump
    rw [hreq2]
    unfold CapacitiveFlag.wasSetWithin
    simp only [decide_eq_false_iff_not]
    omega
  have hground : tickGrounded st inp = ⟨false, 0⟩ := by
    unfold tickGrounded
    rw [hg, hgr]
    unfold CapacitiveFlag.tick
    simp
  have hproj :
      (playerTick p st inp).1.grounded = tickGrounded st inp ∧
      (playerTick p st inp).1.jump_requested = st.jump_requested.tick inp.jumpPressed ∧
      (playerTick p st inp).1.jumping = (tickRefund p st inp).2.1 ∧
      (playerTick p st inp).1.jumps_remaining = (tickRefund p st inp).1 ∧
      (playerTick p st inp).1.lost_jump_due_to_falling = (tickRefund p st inp).2.2.1 := by
    unfold playerTick
    rw [hnj]
    simp
  have hrefund : tickRefund p st inp =
      (st.jumps_remaining, st.jumping, st.lost_jump_due_to_falling, st.x_when_jumped) := by
    unfold tickRefund
    rw [hground]
    simp only [CapacitiveFlag.isSet, CapacitiveFlag.wasSetWithin, Bool.false_eq_true,
      if_false, decide_eq_true (Nat.zero_le p.coyote_time)]
    simp
  refine ⟨by rw [hproj.1, hground], by rw [hproj.2.1, hreq2],
    by rw [hproj.2.2.1, hrefund], by rw [hproj.2.2.2.1, hrefund],
    by rw [hproj.2.2.2.2, hrefund]⟩

/-- Run-level invariant of a continuous airborne, jump-free episode that
starts from a freshly grounded state: the grounded timer reads `k - 1`
after `k` airborne ticks; `jumps_remaining` is untouched through tick
`coyote_time + 1`, and from tick `coyote_time + 2` on it is exactly one
less (saturating), with the lost flag set. -/
theorem tickRun_falling (p : PlayerControlParams) (st0 : PlayerControlState)
    (inp : TickInput)
    (hgr : inp.groundedReport = false) (hjp : inp.jumpPressed = false)
    (hbuf : p.jump_input_buffer < USIZE_MAX)
    (hcoy : p.coyote_time + 1 ≤ USIZE_MAX)
    (hg0 : st0.grounded = ⟨true, 0⟩) (hj0 : st0.jumping = false)
    (hl0 : st0.lost_jump_due_to_falling = false)
    (hr0 : st0.jump_requested = ⟨false, USIZE_MAX⟩) :
    ∀ k, 1 ≤ k →
      (tickRun p st0 inp k).grounded = ⟨false, min (k - 1) USIZE_MAX⟩ ∧
      (tickRun p st0 inp k).jump_requested = ⟨false, USIZE_MAX⟩ ∧
      (tickRun p st0 inp k).jumping = false ∧
      (k ≤ p.coyote_time + 1 →
        (tickRun p st0 inp k).jumps_remaining = st0.jumps_remaining ∧
        (tickRun p st0 inp k).lost_jump_due_to_falling = false) ∧
      (p.coyote_time + 2 ≤ k →
        (tickRun p st0 inp k).jumps_remaining = st0.jumps_remaining - 1 ∧
        (tickRun p st0 inp k).lost_jump_due_to_falling = true) := by
  intro k
  induction k with
  | zero => intro h; exact absurd h (by norm_num)
  | succ n ih =>
    intro _
    cases n with
    | zero =>
      have hfirst := playerTick_falling_first p st0 inp hgr hjp hbuf hr0 hg0
      have hrun1 : tickRun p st0 inp (0 + 1) = (playerTick p st0 inp).1 := rfl
      refine ⟨?_, by rw [hrun1]; exact hfirst.2.1,
        by rw [hrun1, hfirst.2.2.1, hj0], ?_, ?_⟩
      · rw [hrun1, hfirst.1]
        congr 1
      · intro _
        exact ⟨by rw [hrun1, hfirst.2.2.2.1], by rw [hrun1, hfirst.2.2.2.2, hl0]⟩
      · intro habs
        exact absurd habs (by omega)
    | succ n' =>
      have hprev := ih (by omega)
      have hrun : tickRun p st0 inp (n' + 1 + 1) =
          (playerTick p (tickRun p st0 inp (n' + 1)) inp).1 := rfl
      have hstep := playerTick_falling_step p (tickRun p st0 inp (n' + 1)) inp
        (min n' USIZE_MAX) hgr hjp hbuf hprev.2.1 (by simpa using hprev.1)
      have hincmin : FrameCount.increment (min n' USIZE_MAX) = min (n' + 1) USIZE_MAX := by
        unfold FrameCount.increment
        rw [USIZE_MAX_eq]
        omega
      refine ⟨?_, by rw [hrun, hstep.2.1], by rw [hrun, hstep.2.2.1, hprev.2.2.1],
        ?_, ?_⟩
      · rw [hrun, hstep.1, hincmin]
        simp only [CapacitiveFlag.mk.injEq, true_and]
        omega
      · intro hk
        have hle : FrameCount.increment (min n' USIZE_MAX) ≤ p.coyote_time := by
          rw [hincmin]
          rw [USIZE_MAX_eq] at hcoy ⊢
          omega
        have h4 := hstep.2.2.2.1 hle
        have hprev4 := hprev.2.2.2.1 (by omega)
        exact ⟨by rw [hrun, h4.1, hprev4.1], by rw [hrun, h4.2, hprev4.2]⟩
      · intro hk
        by_cases hcase : n' + 1 ≤ p.coyote_time + 1
        · have hlt : p.coyote_time < FrameCount.increment (min n' USIZE_MAX) := by
            rw [hincmin]
            rw [USIZE_MAX_eq] at hcoy ⊢
            omega
          have hprev4 := hprev.2.2.2.1 hcase
          have h5 := hstep.2.2.2.2.1 hlt hprev4.2 hprev.2.2.1
          exact ⟨by rw [hrun, h5.1, hprev4.1], by rw [hrun, h5.2]⟩
        · have hprev5 := hprev.2.2.2.2 (by omega)
          have hlt : p.coyote_time < FrameCount.increment (min n' USIZE_MAX) := by
            rw [hincmin]
            rw [USIZE_MAX_eq] at hcoy ⊢
            omega
          have h6 := hstep.2.2.2.2.2 hlt hprev5.2
          exact ⟨by rw [hrun, h6.1, hprev5.1], by rw [hrun, h6.2]⟩

/-- C6 counterexample: with `coyote_time = 1` and `max_jumps`-style initial
`jumps_remaining = 3`, a player airborne for `coyote_time + 1 = 2` ticks has
lost nothing yet (still 3 jumps, where the claim demands 2); the decrement
happens on tick `coyote_time + 2 = 3`. -/
theorem C6_counterexample :
    sampleParams.coyote_time + 1 = 2 ∧
    sampleFallState.jumps_remaining = 3 ∧
    (tickRun sampleParams sampleFallState sampleFallInput 2).jumps_remaining = 3 ∧
    (tickRun sampleParams sampleFallState sampleFallInput 3).jumps_remaining = 2 := by
  have h := tickRun_falling sampleParams sampleFallState sampleFallInput rfl rfl
    (by decide) (by decide) rfl rfl rfl rfl
  refine ⟨rfl, rfl, ?_, ?_⟩
  · exact ((h 2 (by norm_num)).2.2.2.1 (by decide)).1
  · exact ((h 3 (by norm_num)).2.2.2.2 (by decide)).1

/-- C6 (amended): in a continuous airborne, jump-free episode starting from
a freshly grounded state, `jumps_remaining` is unchanged through the first
`coyote_time + 1` airborne ticks, decreases by exactly 1 (saturating at 0)
on tick `coyote_time + 2` — when `lost_jump_due_to_falling` is set — and
never decreases again on any later tick of the episode. -/
theorem C6_coyote_time_loss (p : PlayerControlParams) (st0 : PlayerControlState)
    (inp : TickInput)
    (hgr : inp.groundedReport = false) (hjp : inp.jumpPressed = false)
    (hbuf : p.jump_input_buffer < USIZE_MAX)
    (hcoy : p.coyote_time + 1 ≤ USIZE_MAX)
    (hg0 : st0.grounded = ⟨true, 0⟩) (hj0 : st0.jumping = false)
    (hl0 : st0.lost_jump_due_to_falling = false)
    (hr0 : st0.jump_requested = ⟨false, USIZE_MAX⟩) :
    (∀ k, k ≤ p.coyote_time + 1 →
      (tickRun p st0 inp k).jumps_remaining = st0.jumps_remaining) ∧
    (tickRun p st0 inp (p.coyote_time + 2)).jumps_remaining =
      st0.jumps_remaining - 1 ∧
    (tickRun p st0 inp (p.coyote_time + 2)).lost_jump_due_to_falling = true ∧
    (∀ m, p.coyote_time + 2 ≤ m →
      (tickRun p st0 inp m).jumps_remaining = st0.jumps_remaining - 1) := by
  have h := tickRun_falling p st0 inp hgr hjp hbuf hcoy hg0 hj0 hl0 hr0
  refine ⟨?_, ?_, ?_, ?_⟩
  · intro k hk
    cases k with
    | zero => rfl
    | succ n => exact ((h (n + 1) (by omega)).2.2.2.1 hk).1
  · exact ((h _ (by omega)).2.2.2.2 (by omega)).1
  · exact ((h _ (by omega)).2.2.2.2 (by omega)).2
  · intro m hm
    exact ((h m (by omega)).2.2.2.2 hm).1

/-- C6 witness: the amended coyote-loss timing at the concrete scenario
(coyote_time 1, three jumps in reserve). -/
theorem C6_coyote_time_loss_witness :
    (∀ k, k ≤ sampleParams.coyote_time + 1 →
      (tickRun sampleParams sampleFallState sampleFallInput k).jumps_remaining =
        sampleFallState.jumps_remaining) ∧
    (tickRun sampleParams sampleFallState sampleFallInput
        (sampleParams.coyote_time + 2)).jumps_remaining =
      sampleFallState.jumps_remaining - 1 ∧
    (tickRun sampleParams sampleFallState sampleFallInput
        (sampleParams.coyote_time + 2)).lost_jump_due_to_falling = true ∧
    (∀ m, sampleParams.coyote_time + 2 ≤ m →
      (tickRun sampleParams sampleFallState sampleFallInput m).jumps_remaining =
        sampleFallState.jumps_remaining - 1) :=
  C6_coyote_time_loss sampleParams sampleFallState sampleFallInput rfl rfl
    (by decide) (by decide) rfl rfl rfl rfl
